import Mathlib

/-!
# Collective Embedding — verification of the session/graph engine

A shallow embedding of `src/server/index.js` (the in-memory graph/session
engine of the Collective Embedding classroom exercise).  JavaScript `Map`s
are modelled as insertion-ordered association lists (`List (κ × ν)` with
`alGet`/`alSet` mirroring `Map.get`/`Map.set`: `set` on an existing key
replaces the value in place, preserving enumeration order, exactly as JS
`Map` does).  Machine integers that matter (the 32-bit hash used for
anonymous labels) are modelled as `Int` with explicit reduction mod 2^32;
the colour-blend arithmetic is modelled exactly over `ℚ` (the float
results of the source coincide with the exact rationals after `Math.round`
for every property stated here, since all rounded quantities are at least
0.1 away from a half-integer while float error is below 1e-10).
The single pending `setTimeout` handle stored in `session.autoAdvanceTimer`
is modelled as an `Option Nat` carrying the delay: the source cancels the
stored handle before every reschedule (`clearTimeout` then `setTimeout`),
so the set of pending auto-advance tasks always coincides with the stored
handle, i.e. with the `Option` field.
-/

/-- Association-list lookup, mirroring JS `Map.prototype.get` (with
`undefined` as `none`). -/
def alGet {κ ν : Type} [DecidableEq κ] : List (κ × ν) → κ → Option ν
  | [], _ => none
  | (k, v) :: rest, key => if k = key then some v else alGet rest key

/-- Association-list insert/update, mirroring JS `Map.prototype.set`: an
existing key keeps its insertion position, a new key is appended. -/
def alSet {κ ν : Type} [DecidableEq κ] : List (κ × ν) → κ → ν → List (κ × ν)
  | [], key, val => [(key, val)]
  | (k, v) :: rest, key, val =>
      if k = key then (key, val) :: rest else (k, v) :: alSet rest key val

/-- Association-list removal of the first matching key, mirroring JS
`Map.prototype.delete`. -/
def alRemove {κ ν : Type} [DecidableEq κ] : List (κ × ν) → κ → List (κ × ν)
  | [], _ => []
  | (k, v) :: rest, key => if k = key then rest else (k, v) :: alRemove rest key

/-- JS `String(n).padStart(2, '0')` for a natural number. -/
def pad2 (n : Nat) : String :=
  if n < 10 then "0" ++ toString n else toString n

/-- JS `Array.prototype.indexOf`: index of the first occurrence, `-1` when
absent. -/
def jsIndexOf {α : Type} [DecidableEq α] : List α → α → Int
  | [], _ => -1
  | x :: rest, a =>
      if x = a then 0
      else match jsIndexOf rest a with
           | -1 => -1
           | i => i + 1

/-- Signed 32-bit reduction: the `ToInt32` coercion JS applies inside
bitwise operations. -/
def toInt32 (n : Int) : Int :=
  let m := n % 4294967296
  if m < 2147483648 then m else m - 4294967296

/-! ## Data model (`session` literal, lines 23–39 of the source) -/

/-- The four fixed influence channels. -/
inductive Channel : Type
  | cognitive
  | creative
  | technical
  | social
deriving DecidableEq, Repr

/-- A question: text plus the channel nominations on it accumulate into. -/
structure Question where
  text : String
  channel : Channel
deriving DecidableEq, Repr

/-- One participant's stored answer to one question
(`{ targetParticipantId, channel, timestamp }`); `none` target models the
falsy/absent target id, in which case no edge is touched. -/
structure ResponseR where
  targetParticipantId : Option String
  channel : Channel
  timestamp : Nat
deriving DecidableEq, Repr

/-- A graph node: the outgoing adjacency map
`connections : Map(targetId -> Map(channel -> weight))`.  (The source also
stores a constant zero `embedding` record on the node; it is never read by
any computation, so it is omitted.) -/
structure NodeR where
  connections : List (String × List (Channel × Nat))
deriving DecidableEq, Repr

/-- A materialized edge record
`{ fromNodeId, toNodeId, channel, weight, timestamp }`. -/
structure EdgeR where
  fromNodeId : String
  toNodeId : String
  channel : Channel
  weight : Nat
  timestamp : Nat
deriving DecidableEq, Repr

/-- The process-wide session aggregate.  Edges are keyed by the
`(source, target, channel)` triple — the source's string key
`from-to-channel` is injective on the UUID identifiers it is built from.
`autoAdvanceTimer` holds the delay of the single pending auto-advance
task, if any. -/
structure Session where
  id : Option String
  isActive : Bool
  participants : List (String × String)
  questions : List Question
  currentQuestionIndex : Int
  responses : List (Int × List (String × ResponseR))
  nodes : List (String × NodeR)
  edges : List ((String × String × Channel) × EdgeR)
  identityMap : List (String × String)
  epochCount : Nat
  identityDeleted : Bool
  isPaused : Bool
  autoAdvanceTimer : Option Nat
deriving DecidableEq, Repr

/-- The initial in-memory state (source lines 23–39). -/
def initialSession : Session where
  id := none
  isActive := false
  participants := []
  questions := []
  currentQuestionIndex := -1
  responses := []
  nodes := []
  edges := []
  identityMap := []
  epochCount := 0
  identityDeleted := false
  isPaused := false
  autoAdvanceTimer := none

/-- The twenty default questions (source lines 42–70). -/
def defaultQuestions : List Question :=
  [ ⟨"Who helps you see problems from a new perspective?", Channel.cognitive⟩,
    ⟨"Who asks questions that shift the direction of a discussion?", Channel.cognitive⟩,
    ⟨"Who would you want to learn from intellectually?", Channel.cognitive⟩,
    ⟨"Who tends to frame complex ideas clearly?", Channel.cognitive⟩,
    ⟨"Who brings depth to group conversations?", Channel.cognitive⟩,
    ⟨"Who brings the most unexpected or original ideas?", Channel.creative⟩,
    ⟨"Who inspires others creatively?", Channel.creative⟩,
    ⟨"Who would you brainstorm with when you feel stuck?", Channel.creative⟩,
    ⟨"Who pushes conceptual boundaries?", Channel.creative⟩,
    ⟨"Who introduces surprising connections between ideas?", Channel.creative⟩,
    ⟨"Who would you go to for solving a complex technical or practical problem?", Channel.technical⟩,
    ⟨"Who would you trust to make things work under pressure?", Channel.technical⟩,
    ⟨"Who would you want as a teammate on a challenging build/prototype task?", Channel.technical⟩,
    ⟨"Who is strongest at translating ideas into working prototypes?", Channel.technical⟩,
    ⟨"Who handles practical constraints well (time, tools, feasibility)?", Channel.technical⟩,
    ⟨"Who is the best listener in the group?", Channel.social⟩,
    ⟨"Who brings emotional stability or calm to the team?", Channel.social⟩,
    ⟨"Who raises group morale and energy?", Channel.social⟩,
    ⟨"Who helps resolve tension or conflict when it appears?", Channel.social⟩,
    ⟨"Who makes collaboration feel easier and safer?", Channel.social⟩ ]

/-- Channel registry hex colors (source lines 73–78). -/
def channelHex : Channel → String
  | Channel.cognitive => "#3A7BFF"
  | Channel.creative => "#8B5CF6"
  | Channel.technical => "#22C55E"
  | Channel.social => "#F59E0B"

/-- An RGB color triple (integer components). -/
structure Rgb where
  r : Int
  g : Int
  b : Int
deriving DecidableEq, Repr

/-- Value of one hex digit (the character classes of the source's regex). -/
def hexDigitVal (c : Char) : Nat :=
  if ('0' ≤ c ∧ c ≤ '9') then c.toNat - '0'.toNat
  else if ('a' ≤ c ∧ c ≤ 'f') then c.toNat - 'a'.toNat + 10
  else if ('A' ≤ c ∧ c ≤ 'F') then c.toNat - 'A'.toNat + 10
  else 0

/-- `hexToRgb` (source lines 209–216): parse `#RRGGBB`, black on failure. -/
def hexToRgb (s : String) : Rgb :=
  match s.data with
  | ['#', r1, r2, g1, g2, b1, b2] =>
      ⟨(hexDigitVal r1 * 16 + hexDigitVal r2 : Nat),
       (hexDigitVal g1 * 16 + hexDigitVal g2 : Nat),
       (hexDigitVal b1 * 16 + hexDigitVal b2 : Nat)⟩
  | _ => ⟨0, 0, 0⟩

/-- Base RGB color of a channel, as `hexToRgb(channels[ch].color)`. -/
def channelColor (ch : Channel) : Rgb := hexToRgb (channelHex ch)

/-! ## Derived computations over the graph (source lines 81–343) -/

/-- Per-channel contribution of one adjacency entry list: the effect of the
inner loop `for (const [channel, weight] of channelWeights)
embedding[channel] += weight` on a single channel slot. -/
def chanTotal (ws : List (Channel × Nat)) (ch : Channel) : Nat :=
  ws.foldl (fun acc cw => if cw.1 = ch then acc + cw.2 else acc) 0

/-- Total of all weights in an adjacency entry list: the inner loop of the
centrality sums (`for (const weight of channelWeights.values())`). -/
def weightsTotal (ws : List (Channel × Nat)) : Nat :=
  ws.foldl (fun acc cw => acc + cw.2) 0

/-- Contribution of one source node's adjacency map to `participantId`'s
incoming weight on channel `ch`: the body of the outer loop of
`calculateEmbeddingVector`, zero when the `connections.has` check fails. -/
def incomingFrom (n : NodeR) (participantId : String) (ch : Channel) : Nat :=
  match alGet n.connections participantId with
  | some channelWeights => chanTotal channelWeights ch
  | none => 0

/-- Contribution of one source node's adjacency map to `participantId`'s
total incoming weight (all channels): the body of the `inDegree` loop of
`calculateCentrality`. -/
def incomingTotalFrom (n : NodeR) (participantId : String) : Nat :=
  match alGet n.connections participantId with
  | some channelWeights => weightsTotal channelWeights
  | none => 0

/-- `calculateEmbeddingVector` (source lines 81–98), one channel slot of
the returned record: raw incoming weight on `ch` accumulated over every
source node whose `connections` has an entry for `participantId`.  (The
source's `channelWeights instanceof Map` test is always true in this
typed model, as every value the engine writes is a `Map`.) -/
def calculateEmbeddingVector (s : Session) (participantId : String) (ch : Channel) : Nat :=
  s.nodes.foldl (fun acc n => acc + incomingFrom n.2 participantId ch) 0

/-- Centrality record returned by `calculateCentrality`. -/
structure Centrality where
  inDegree : Nat
  outDegree : Nat
  betweenness : Nat
  totalVolume : Nat
deriving DecidableEq, Repr

/-- `node.connections.has` through the graph: whether `a` has any outgoing
adjacency entry for `b` (optional chaining yields false when `a` has no
node). -/
def hasConn (s : Session) (a b : String) : Bool :=
  match alGet s.nodes a with
  | some n => (alGet n.connections b).isSome
  | none => false

/-- `isOnShortestPath(start, end, middle)` (source lines 277–284). -/
def isOnShortestPath (s : Session) (start fin mid : String) : Bool :=
  hasConn s start mid && hasConn s mid fin

/-- Count over all unordered pairs drawn (in order) from a key list of a
boolean test — the double loop of `calculateBetweennessCentrality`. -/
def countPairs (f : String → String → Bool) : List String → Nat
  | [] => 0
  | x :: rest => rest.countP (f x) + countPairs f rest

/-- `calculateBetweennessCentrality` (source lines 258–275). -/
def calculateBetweennessCentrality (s : Session) (nodeId : String) : Nat :=
  countPairs
    (fun a b => !(a == nodeId) && !(b == nodeId) && isOnShortestPath s a b nodeId)
    (s.nodes.map Prod.fst)

/-- `calculateCentrality` (source lines 219–256): weighted in/out degree,
the simplified betweenness proxy, and total volume; zeros when the
participant has no node. -/
def calculateCentrality (s : Session) (participantId : String) : Centrality :=
  match alGet s.nodes participantId with
  | none => ⟨0, 0, 0, 0⟩
  | some participant =>
      let inDegree :=
        s.nodes.foldl (fun acc n => acc + incomingTotalFrom n.2 participantId) 0
      let outDegree :=
        participant.connections.foldl (fun acc c => acc + weightsTotal c.2) 0
      let betweenness := calculateBetweennessCentrality s participantId
      ⟨inDegree, outDegree, betweenness, inDegree + outDegree⟩

/-- A raw embedding record `{ cognitive, creative, technical, social }`. -/
structure Emb where
  cognitive : Nat
  creative : Nat
  technical : Nat
  social : Nat
deriving DecidableEq, Repr

/-- `Object.entries(embedding)` in the record literal's insertion order. -/
def embEntries (e : Emb) : List (Channel × Nat) :=
  [(Channel.cognitive, e.cognitive), (Channel.creative, e.creative),
   (Channel.technical, e.technical), (Channel.social, e.social)]

/-- The full embedding record of a node, assembled from
`calculateEmbeddingVector`'s per-channel slots. -/
def embeddingOf (s : Session) (participantId : String) : Emb :=
  ⟨calculateEmbeddingVector s participantId Channel.cognitive,
   calculateEmbeddingVector s participantId Channel.creative,
   calculateEmbeddingVector s participantId Channel.technical,
   calculateEmbeddingVector s participantId Channel.social⟩

/-- JS `Math.round` on an exact rational (half rounds toward +∞). -/
def jsRound (q : ℚ) : Int := ⌊q + 1 / 2⌋

/-- The dominant-channel scan of `generateNodeColor` (source lines
104–112): strict maximum, first-seen wins, `none` when every weight is
zero. -/
def findDominant (e : Emb) : Nat × Option Channel :=
  (embEntries e).foldl
    (fun acc cw => if cw.2 > acc.1 then (cw.2, some cw.1) else acc)
    (0, none)

/-- `generateNodeColor` (source lines 99–141).  The `"#888888"` neutral
gray is returned as its RGB triple `(136, 136, 136)`; the final clamp
`Math.min(255, Math.max(0, Math.round(x)))` is transcribed componentwise. -/
def generateNodeColor (e : Emb) : Rgb :=
  let totalWeight : Nat := (embEntries e).foldl (fun acc cw => acc + cw.2) 0
  if totalWeight = 0 then ⟨136, 136, 136⟩
  else
    match findDominant e with
    | (_, none) => ⟨136, 136, 136⟩
    | (maxWeight, some dominantChannel) =>
        let baseColor := channelColor dominantChannel
        let dominantStrength : ℚ := min (0.8 : ℚ) ((maxWeight : ℚ) / (totalWeight : ℚ))
        let start : ℚ × ℚ × ℚ :=
          ((baseColor.r : ℚ) * dominantStrength,
           (baseColor.g : ℚ) * dominantStrength,
           (baseColor.b : ℚ) * dominantStrength)
        let rgb :=
          (embEntries e).foldl
            (fun (acc : ℚ × ℚ × ℚ) cw =>
              if cw.1 ≠ dominantChannel ∧ cw.2 > 0 then
                let color := channelColor cw.1
                let factor : ℚ := ((cw.2 : ℚ) / (totalWeight : ℚ)) * (0.5 : ℚ)
                (acc.1 + (color.r : ℚ) * factor,
                 acc.2.1 + (color.g : ℚ) * factor,
                 acc.2.2 + (color.b : ℚ) * factor)
              else acc)
            start
        ⟨min 255 (max 0 (jsRound rgb.1)),
         min 255 (max 0 (jsRound rgb.2.1)),
         min 255 (max 0 (jsRound rgb.2.2))⟩

/-! ## Anonymization layer (source lines 297–307 and the label selection
of the graph read, lines 161–180) -/

/-- One step of the JS reduce in `generateAnonymousLabel`:
`a = ((a << 5) - a) + b.charCodeAt(0); return a & a` — `<<` and `& a`
coerce through signed 32-bit, the middle sum is exact. -/
def hashStep (a : Int) (c : Nat) : Int :=
  toInt32 (toInt32 (a * 32) - a + c)

/-- The accumulated 32-bit hash of an identifier's character codes. -/
def jsHash (id : String) : Int :=
  (id.data.map Char.toNat).foldl hashStep 0

/-- The eight fixed adjective stems. -/
def adjectives : List String :=
  ["Alpha", "Beta", "Gamma", "Delta", "Sigma", "Theta", "Lambda", "Omega"]

/-- `generateAnonymousLabel` (source lines 297–307): a deterministic
pseudonym `Stem-NN` derived from the hash of the identifier alone. -/
def generateAnonymousLabel (participantId : String) : String :=
  let hash := jsHash participantId
  let numbers := hash.natAbs % 100
  let adjective := (adjectives.get? (hash.natAbs % adjectives.length)).getD ""
  adjective ++ "-" ++ pad2 numbers

/-- The positional label used once identity is suppressed:
`Node-${String(indexOf(id) + 1).padStart(2, '0')}` over the node key
enumeration order. -/
def positionalLabel (s : Session) (id : String) : String :=
  "Node-" ++ pad2 (jsIndexOf (s.nodes.map Prod.fst) id + 1).toNat

/-- The label selection of the graph read (source line 171): positional
once `identityDeleted`, else the deterministic pseudonym. -/
def labelFor (s : Session) (id : String) : String :=
  if s.identityDeleted then positionalLabel s id else generateAnonymousLabel id

/-! ## Session state machine (source lines 345–742)

External inputs the runtime supplies (fresh UUIDs, `Math.random` draws,
`Date.now()`) are passed as explicit parameters. -/

/-- Swap two positions of a list (the destructuring swap of the shuffle);
out-of-range indices leave the list unchanged. -/
def listSwap {α : Type} (l : List α) (i j : Nat) : List α :=
  match l.get? i, l.get? j with
  | some a, some b => (l.set i b).set j a
  | _, _ => l

/-- The descending Fisher–Yates loop: at index `i ≥ 1` pick
`j = rand_head % (i + 1)` (the model of `Math.floor(Math.random() * (i + 1))`,
always in `[0, i]`) and swap. -/
def fyLoop {α : Type} : List α → List Nat → Nat → List α
  | l, _, 0 => l
  | l, rand, Nat.succ k =>
      fyLoop (listSwap l (k + 1) (rand.headD 0 % (k + 2))) rand.tail k

/-- `shuffleArray` (source lines 346–353), with the random draws supplied
as a list of naturals. -/
def shuffleArray {α : Type} (l : List α) (rand : List Nat) : List α :=
  fyLoop l rand (l.length - 1)

/-- `POST /api/session/create` (source lines 356–386): new id, shuffled
questions (`req.body.questions || defaultQuestions`), participants /
responses / nodes / identityMap cleared, cursor −1, epoch 0, suppression
off.  `edges`, `isPaused` and `autoAdvanceTimer` are not touched — exactly
as in the source, which omits them from the reset. -/
def createSession (s : Session) (sessionId : String)
    (bodyQuestions : Option (List Question)) (rand : List Nat) : Session :=
  { s with
    id := some sessionId
    isActive := true
    questions := shuffleArray (bodyQuestions.getD defaultQuestions) rand
    participants := []
    responses := []
    nodes := []
    identityMap := []
    currentQuestionIndex := -1
    epochCount := 0
    identityDeleted := false }

/-- The `join-session` socket handler (source lines 627–668): rejected when
the supplied session id does not match the active session, or at the
capacity of 20; otherwise registers the participant, creates their graph
node, and records the real name unless identity is already suppressed. -/
def joinSession (s : Session) (sessionId name newParticipantId : String) : Session :=
  if sessionId ≠ (s.id.getD "") ∨ s.isActive = false then s
  else if 20 ≤ s.participants.length then s
  else
    { s with
      participants := alSet s.participants newParticipantId name
      nodes := alSet s.nodes newParticipantId ⟨[]⟩
      identityMap :=
        if s.identityDeleted = false then alSet s.identityMap newParticipantId name
        else s.identityMap }

/-- Number of responses recorded for question `qIdx`
(`session.responses.get(questionIndex)?.size || 0`). -/
def responseCountAt (s : Session) (qIdx : Int) : Nat :=
  match alGet s.responses qIdx with
  | some m => m.length
  | none => 0

/-- `checkForAutoAdvance` (source lines 520–534): no-op when paused;
otherwise, when everyone has answered question `qIdx`
(`responseCount >= participantCount && participantCount > 0`), cancel the
pending timer and arm a fresh single-shot 5000 ms advance. -/
def checkForAutoAdvance (s : Session) (qIdx : Int) : Session :=
  if s.isPaused then s
  else
    let responseCount := responseCountAt s qIdx
    let participantCount := s.participants.length
    if participantCount ≤ responseCount ∧ 0 < participantCount then
      { s with autoAdvanceTimer := some 5000 }
    else s

/-- The response-storage step of the `submit-response` handler (source
lines 682–690): ensure the per-question map exists and record the
participant's answer, the last write for the index winning. -/
def recordResponse (s : Session) (participantId : String) (questionIndex : Int)
    (targetParticipantId : Option String) (channel : Channel) (now : Nat) : Session :=
  let inner := (alGet s.responses questionIndex).getD []
  { s with
    responses :=
      alSet s.responses questionIndex
        (alSet inner participantId ⟨targetParticipantId, channel, now⟩) }

/-- The graph-mutation step of the `submit-response` handler (source lines
692–712), the store's `upsertEdge(source, target, channel)`: when the
source has a node, increment the `(source, target, channel)` adjacency
weight by one (creating the nested entries as needed) and rewrite the
materialized edge record with the same new weight and timestamp. -/
def upsertEdge (s : Session) (source target : String) (channel : Channel)
    (now : Nat) : Session :=
  match alGet s.nodes source with
  | none => s
  | some sourceNode =>
      let channelWeights := (alGet sourceNode.connections target).getD []
      let currentWeight := (alGet channelWeights channel).getD 0
      let connections' :=
        alSet sourceNode.connections target
          (alSet channelWeights channel (currentWeight + 1))
      { s with
        nodes := alSet s.nodes source ⟨connections'⟩
        edges :=
          alSet s.edges (source, target, channel)
            ⟨source, target, channel, currentWeight + 1, now⟩ }

/-- The `submit-response` socket handler (source lines 670–726): guarded on
`questionIndex === session.currentQuestionIndex` (and, as in the source,
the handler aborts before any mutation when no question exists at that
index — `question.channel` would throw).  Records the response, then, when
a target was named (`sourceNode && targetParticipantId`), upserts the
edge, and finally runs the auto-advance check. -/
def submitResponse (s : Session) (participantId : String) (questionIndex : Int)
    (targetParticipantId : Option String) (now : Nat) : Session :=
  if questionIndex ≠ s.currentQuestionIndex then s
  else
    match (if 0 ≤ questionIndex then s.questions.get? questionIndex.toNat else none) with
    | none => s
    | some question =>
        let s1 := recordResponse s participantId questionIndex targetParticipantId
          question.channel now
        let s2 :=
          match targetParticipantId with
          | some target => upsertEdge s1 participantId target question.channel now
          | none => s1
        checkForAutoAdvance s2 questionIndex

/-- Outcome reported by the synchronous next-question handler. -/
inductive NextOutcome : Type
  | waiting (responseCount participantCount : Nat)
  | advanced (questionIndex : Int)
  | noMore
deriving DecidableEq, Repr

/-- `POST /api/session/next-question` (source lines 478–511): when a
question is current and has outstanding respondents, refuse and report the
shortfall; otherwise advance the cursor if questions remain.  The handler
checks neither `isPaused` nor `isActive`, and does not touch the epoch —
exactly as in the source. -/
def nextQuestion (s : Session) : Session × NextOutcome :=
  let blocked :=
    0 ≤ s.currentQuestionIndex ∧
      responseCountAt s s.currentQuestionIndex < s.participants.length ∧
      0 < s.participants.length
  if blocked then
    (s, NextOutcome.waiting (responseCountAt s s.currentQuestionIndex) s.participants.length)
  else
    if s.currentQuestionIndex < (s.questions.length : Int) - 1 then
      ({ s with currentQuestionIndex := s.currentQuestionIndex + 1 },
       NextOutcome.advanced (s.currentQuestionIndex + 1))
    else (s, NextOutcome.noMore)

/-- `POST /api/session/epoch-update` (source lines 513–517). -/
def epochUpdate (s : Session) : Session :=
  { s with epochCount := s.epochCount + 1 }

/-- `advanceToNextQuestion` (source lines 536–562): no-op when paused;
otherwise advance the cursor and increment the epoch when questions
remain, else only broadcast completion.  (No outstanding-respondents
check, no `isActive` check — as in the source.) -/
def advanceToNextQuestion (s : Session) : Session :=
  if s.isPaused then s
  else if s.currentQuestionIndex < (s.questions.length : Int) - 1 then
    { s with
      currentQuestionIndex := s.currentQuestionIndex + 1
      epochCount := s.epochCount + 1 }
  else s

/-- The pending auto-advance timer firing: the one-shot task is consumed
and `advanceToNextQuestion` runs.  No pending task, no transition. -/
def fireTimer (s : Session) : Session :=
  if s.autoAdvanceTimer.isSome then
    advanceToNextQuestion { s with autoAdvanceTimer := none }
  else s

/-- `POST /api/session/pause-resume` (source lines 565–580): pausing sets
the flag and cancels the pending timer; resuming clears the flag and, when
a question is current, re-runs the auto-advance check. -/
def pauseResume (s : Session) (pause : Bool) : Session :=
  if pause then { s with isPaused := true, autoAdvanceTimer := none }
  else
    let s1 := { s with isPaused := false }
    if 0 ≤ s1.currentQuestionIndex then checkForAutoAdvance s1 s1.currentQuestionIndex
    else s1

/-- `POST /api/session/end` (source lines 583–611): benign failure when no
session is active; otherwise cancels the timer and clears participants,
responses, nodes, edges and the identity map, resetting cursor, epoch,
suppression and pause.  (`questions` is left in place, as in the source.) -/
def endSession (s : Session) : Session :=
  if s.isActive = false then s
  else
    { s with
      autoAdvanceTimer := none
      id := none
      isActive := false
      participants := []
      responses := []
      nodes := []
      edges := []
      identityMap := []
      currentQuestionIndex := -1
      epochCount := 0
      identityDeleted := false
      isPaused := false }

/-- `POST /api/session/start-questions` (source lines 614–621): refuse when
questions have already started, else run the advance path. -/
def startQuestions (s : Session) : Session :=
  if 0 ≤ s.currentQuestionIndex then s else advanceToNextQuestion s

/-- Modelled from the spec: `POST /api/session/delete-identity` is listed
in the repository's README but the handler is absent from
`src/server/index.js`.  Per spec §4.6, suppression "discards the
identifier→real-name map" and switches labels permanently to the
positional scheme: the identity-suppressed flag goes up and the
identifier→real-name map is emptied. -/
def deleteIdentity (s : Session) : Session :=
  { s with identityDeleted := true, identityMap := [] }

/-- The `disconnect` socket handler (source lines 728–741): removes the
matching participant from the roster (their graph node and edges are
retained). -/
def disconnectParticipant (s : Session) (participantId : String) : Session :=
  { s with participants := alRemove s.participants participantId }

/-- One externally triggerable transition within a session's lifetime
(everything except `createSession`/`endSession`, which end the lifetime). -/
inductive SessionStep : Session → Session → Prop
  | join (s : Session) (sid name pid : String) :
      SessionStep s (joinSession s sid name pid)
  | submit (s : Session) (pid : String) (qIdx : Int) (t : Option String) (now : Nat) :
      SessionStep s (submitResponse s pid qIdx t now)
  | nextQ (s : Session) : SessionStep s (nextQuestion s).1
  | epoch (s : Session) : SessionStep s (epochUpdate s)
  | fire (s : Session) : SessionStep s (fireTimer s)
  | pauseRes (s : Session) (p : Bool) : SessionStep s (pauseResume s p)
  | startQ (s : Session) : SessionStep s (startQuestions s)
  | delIdent (s : Session) : SessionStep s (deleteIdentity s)
  | leave (s : Session) (pid : String) : SessionStep s (disconnectParticipant s pid)

/-- Reachability within a session's lifetime. -/
def SessionReach : Session → Session → Prop :=
  Relation.ReflTransGen SessionStep

/-! ## Observations used by the verification statements -/

/-- The accumulated adjacency weight for `(source, target, channel)`, read
exactly the way the handler itself reads it
(`connections.get(target).get(channel) || 0`, zero when entries are
missing). -/
def adjWeight (s : Session) (source target : String) (ch : Channel) : Nat :=
  match alGet s.nodes source with
  | some n => (alGet ((alGet n.connections target).getD []) ch).getD 0
  | none => 0

/-- The weight carried by the materialized edge record for
`(source, target, channel)`, when one exists. -/
def edgeWeightAt (s : Session) (source target : String) (ch : Channel) : Option Nat :=
  (alGet s.edges (source, target, ch)).map EdgeR.weight

/-- The response stored for `participantId` on question `qIdx`. -/
def responseAt (s : Session) (qIdx : Int) (participantId : String) : Option ResponseR :=
  (alGet s.responses qIdx).getD [] |> (alGet · participantId)

/-- The data-model invariant of spec §3: every materialized edge's weight
equals the weight stored for its channel in the source node's adjacency
map entry for its target. -/
def edgeMatchesAdjacency (s : Session) : Prop :=
  ∀ key e, alGet s.edges key = some e →
    ∃ n ws, alGet s.nodes key.1 = some n ∧
      alGet n.connections key.2.1 = some ws ∧
      alGet ws key.2.2 = some e.weight

/-- Identity suppression has taken effect: flag up, name map discarded. -/
def Suppressed (s : Session) : Prop :=
  s.identityDeleted = true ∧ s.identityMap = []

/-- The current question exists and is fully answered
(`responseCount >= participantCount && participantCount > 0`). -/
def fullyAnsweredCurrent (s : Session) : Prop :=
  0 ≤ s.currentQuestionIndex ∧ 0 < s.participants.length ∧
    s.participants.length ≤ responseCountAt s s.currentQuestionIndex

/-- The embedding vector with a single (possibly) non-zero channel. -/
def singleEmb (ch : Channel) (w : Nat) : Emb :=
  match ch with
  | Channel.cognitive => ⟨w, 0, 0, 0⟩
  | Channel.creative => ⟨0, w, 0, 0⟩
  | Channel.technical => ⟨0, 0, w, 0⟩
  | Channel.social => ⟨0, 0, 0, w⟩

/-- Stated from the spec's words (§4.5 / §8) for comparison with the
source-derived `generateNodeColor`: a base color scaled component-wise by
exactly 0.8, then rounded. -/
def specScaledBaseColor (c : Rgb) : Rgb :=
  ⟨jsRound ((c.r : ℚ) * (0.8 : ℚ)),
   jsRound ((c.g : ℚ) * (0.8 : ℚ)),
   jsRound ((c.b : ℚ) * (0.8 : ℚ))⟩

/-! ## A concrete demonstration run

Two technical questions (shuffled by the identity permutation), a session
`"S"`, participants `"A"`/`"Alice"` and `"B"`/`"Bob"`, questions started,
and `A` nominating `B` on the current (technical) question. -/

/-- A two-question set, both on the technical channel. -/
def demoQs : List Question :=
  [⟨"Who would you go to for technical help?", Channel.technical⟩,
   ⟨"Who would you trust to make things work under pressure?", Channel.technical⟩]

/-- Fresh session with the two demo questions (the draw `[1]` makes the
Fisher–Yates shuffle the identity permutation). -/
def demoCreated : Session := createSession initialSession "S" (some demoQs) [1]

/-- Both participants joined. -/
def demoJoined : Session :=
  joinSession (joinSession demoCreated "S" "Alice" "A") "S" "Bob" "B"

/-- Questions started: cursor 0, epoch 1. -/
def demoStarted : Session := startQuestions demoJoined

/-- `A` answered question 0 nominating `B`. -/
def demoAnswered : Session := submitResponse demoStarted "A" 0 (some "B") 100

/-! ## Helper lemmas -/

theorem alGet_alSet_self {κ ν : Type} [DecidableEq κ] (l : List (κ × ν)) (k : κ) (v : ν) :
    alGet (alSet l k v) k = some v := by
  induction l with
  | nil => simp [alGet, alSet]
  | cons p rest ih =>
      by_cases h : p.1 = k
      · simp [alSet, alGet, h]
      · simp [alSet, alGet, h, ih]

theorem alGet_alSet_ne {κ ν : Type} [DecidableEq κ] (l : List (κ × ν)) (k k' : κ) (v : ν)
    (h : k ≠ k') : alGet (alSet l k v) k' = alGet l k' := by
  induction l with
  | nil => simp [alGet, alSet, h]
  | cons p rest ih =>
      by_cases hp : p.1 = k
      · simp [alSet, alGet, hp, h]
      · by_cases hp' : p.1 = k'
        · simp [alSet, alGet, hp, hp', Ne.symm h]
        · simp [alSet, alGet, hp, hp', ih]

theorem alSet_length {κ ν : Type} [DecidableEq κ] (l : List (κ × ν)) (k : κ) (v : ν) :
    (alSet l k v).length =
      if (alGet l k).isSome then l.length else l.length + 1 := by
  induction l with
  | nil => simp [alGet, alSet]
  | cons p rest ih =>
      by_cases h : p.1 = k
      · simp [alSet, alGet, h]
      · simp only [alSet, alGet, if_neg h, List.length_cons, ih]
        split <;> rfl

theorem foldl_add_eq_sum {α : Type} (g : α → Nat) (l : List α) (a : Nat) :
    l.foldl (fun acc x => acc + g x) a = a + (l.map g).sum := by
  induction l generalizing a with
  | nil => simp
  | cons x xs ih => simp [List.foldl_cons, ih (a + g x)]; omega

theorem chanTotal_eq_sum (ws : List (Channel × Nat)) (ch : Channel) :
    chanTotal ws ch = (ws.map (fun cw => if cw.1 = ch then cw.2 else 0)).sum := by
  have hstep :
      (fun (acc : Nat) (cw : Channel × Nat) => if cw.1 = ch then acc + cw.2 else acc) =
        fun acc cw => acc + (if cw.1 = ch then cw.2 else 0) := by
    funext acc cw
    split <;> simp
  rw [chanTotal, hstep, foldl_add_eq_sum]
  simp

theorem weightsTotal_eq_sum (ws : List (Channel × Nat)) :
    weightsTotal ws = (ws.map (fun cw => cw.2)).sum := by
  rw [weightsTotal, foldl_add_eq_sum]
  simp

theorem weightsTotal_eq_chanTotals (ws : List (Channel × Nat)) :
    weightsTotal ws =
      chanTotal ws Channel.cognitive + chanTotal ws Channel.creative +
        chanTotal ws Channel.technical + chanTotal ws Channel.social := by
  rw [weightsTotal_eq_sum, chanTotal_eq_sum, chanTotal_eq_sum, chanTotal_eq_sum,
    chanTotal_eq_sum]
  induction ws with
  | nil => simp
  | cons cw rest ih =>
      simp only [List.map_cons, List.sum_cons]
      cases cw.1 <;> simp <;> omega

theorem incomingTotalFrom_eq (n : NodeR) (pid : String) :
    incomingTotalFrom n pid =
      incomingFrom n pid Channel.cognitive + incomingFrom n pid Channel.creative +
        incomingFrom n pid Channel.technical + incomingFrom n pid Channel.social := by
  unfold incomingTotalFrom incomingFrom
  cases alGet n.connections pid with
  | none => simp
  | some ws => simpa using weightsTotal_eq_chanTotals ws

theorem recordResponse_nodes (s : Session) (pid : String) (q : Int)
    (t : Option String) (ch : Channel) (now : Nat) :
    (recordResponse s pid q t ch now).nodes = s.nodes := rfl

theorem recordResponse_participants (s : Session) (pid : String) (q : Int)
    (t : Option String) (ch : Channel) (now : Nat) :
    (recordResponse s pid q t ch now).participants = s.participants := rfl

theorem recordResponse_isPaused (s : Session) (pid : String) (q : Int)
    (t : Option String) (ch : Channel) (now : Nat) :
    (recordResponse s pid q t ch now).isPaused = s.isPaused := rfl

theorem recordResponse_timer (s : Session) (pid : String) (q : Int)
    (t : Option String) (ch : Channel) (now : Nat) :
    (recordResponse s pid q t ch now).autoAdvanceTimer = s.autoAdvanceTimer := rfl

theorem recordResponse_responseAt (s : Session) (pid : String) (q : Int)
    (t : Option String) (ch : Channel) (now : Nat) :
    responseAt (recordResponse s pid q t ch now) q pid = some ⟨t, ch, now⟩ := by
  unfold responseAt recordResponse
  simp [alGet_alSet_self]

theorem recordResponse_count (s : Session) (pid : String) (q : Int)
    (t : Option String) (ch : Channel) (now : Nat) :
    responseCountAt (recordResponse s pid q t ch now) q =
      if (alGet ((alGet s.responses q).getD []) pid).isSome then
        responseCountAt s q
      else responseCountAt s q + 1 := by
  unfold responseCountAt recordResponse
  simp only [alGet_alSet_self]
  rw [alSet_length]
  cases h : alGet s.responses q <;> simp [h]

theorem upsertEdge_participants (s : Session) (a b : String) (ch : Channel) (now : Nat) :
    (upsertEdge s a b ch now).participants = s.participants := by
  unfold upsertEdge
  cases alGet s.nodes a <;> rfl

theorem upsertEdge_responses (s : Session) (a b : String) (ch : Channel) (now : Nat) :
    (upsertEdge s a b ch now).responses = s.responses := by
  unfold upsertEdge
  cases alGet s.nodes a <;> rfl

theorem upsertEdge_isPaused (s : Session) (a b : String) (ch : Channel) (now : Nat) :
    (upsertEdge s a b ch now).isPaused = s.isPaused := by
  unfold upsertEdge
  cases alGet s.nodes a <;> rfl

theorem upsertEdge_timer (s : Session) (a b : String) (ch : Channel) (now : Nat) :
    (upsertEdge s a b ch now).autoAdvanceTimer = s.autoAdvanceTimer := by
  unfold upsertEdge
  cases alGet s.nodes a <;> rfl

theorem upsertEdge_cursor (s : Session) (a b : String) (ch : Channel) (now : Nat) :
    (upsertEdge s a b ch now).currentQuestionIndex = s.currentQuestionIndex := by
  unfold upsertEdge
  cases alGet s.nodes a <;> rfl

theorem upsertEdge_questions (s : Session) (a b : String) (ch : Channel) (now : Nat) :
    (upsertEdge s a b ch now).questions = s.questions := by
  unfold upsertEdge
  cases alGet s.nodes a <;> rfl

theorem upsertEdge_identityDeleted (s : Session) (a b : String) (ch : Channel) (now : Nat) :
    (upsertEdge s a b ch now).identityDeleted = s.identityDeleted := by
  unfold upsertEdge
  cases alGet s.nodes a <;> rfl

theorem upsertEdge_identityMap (s : Session) (a b : String) (ch : Channel) (now : Nat) :
    (upsertEdge s a b ch now).identityMap = s.identityMap := by
  unfold upsertEdge
  cases alGet s.nodes a <;> rfl

theorem upsertEdge_adjWeight (s : Session) (a b : String) (ch : Channel) (now : Nat)
    (n : NodeR) (h : alGet s.nodes a = some n) :
    adjWeight (upsertEdge s a b ch now) a b ch = adjWeight s a b ch + 1 := by
  unfold upsertEdge adjWeight
  rw [h]
  simp [alGet_alSet_self]

theorem upsertEdge_edgeWeight (s : Session) (a b : String) (ch : Channel) (now : Nat)
    (n : NodeR) (h : alGet s.nodes a = some n) :
    edgeWeightAt (upsertEdge s a b ch now) a b ch = some (adjWeight s a b ch + 1) := by
  unfold upsertEdge edgeWeightAt adjWeight
  rw [h]
  simp [alGet_alSet_self]

theorem upsertEdge_node_isSome (s : Session) (a b : String) (ch : Channel) (now : Nat)
    (h : (alGet s.nodes a).isSome) : (alGet (upsertEdge s a b ch now).nodes a).isSome := by
  obtain ⟨n, hn⟩ := Option.isSome_iff_exists.mp h
  unfold upsertEdge
  rw [hn]
  simp [alGet_alSet_self]

theorem checkForAutoAdvance_paused (s : Session) (q : Int) (h : s.isPaused = true) :
    checkForAutoAdvance s q = s := by
  unfold checkForAutoAdvance
  rw [if_pos h]

theorem checkForAutoAdvance_scheduled (s : Session) (q : Int) (h : s.isPaused = false)
    (hc : s.participants.length ≤ responseCountAt s q ∧ 0 < s.participants.length) :
    checkForAutoAdvance s q = { s with autoAdvanceTimer := some 5000 } := by
  unfold checkForAutoAdvance
  rw [if_neg (by simp [h]), if_pos hc]

theorem checkForAutoAdvance_not_scheduled (s : Session) (q : Int)
    (hc : ¬ (s.participants.length ≤ responseCountAt s q ∧ 0 < s.participants.length)) :
    checkForAutoAdvance s q = s := by
  unfold checkForAutoAdvance
  split
  · rfl
  · rw [if_neg hc]

theorem checkForAutoAdvance_cases (s : Session) (q : Int) :
    checkForAutoAdvance s q = s ∨
      checkForAutoAdvance s q = { s with autoAdvanceTimer := some 5000 } := by
  unfold checkForAutoAdvance
  by_cases h1 : s.isPaused = true
  · rw [if_pos h1]
    exact Or.inl rfl
  · rw [if_neg h1]
    by_cases h2 : s.participants.length ≤ responseCountAt s q ∧ 0 < s.participants.length
    · right
      simp only [if_pos h2]
    · left
      simp only [if_neg h2]

theorem submitResponse_valid_eq (s : Session) (pid : String) (qIdx : Int)
    (t : Option String) (now : Nat) (q : Question)
    (hc : qIdx = s.currentQuestionIndex) (h0 : 0 ≤ qIdx)
    (hq : s.questions.get? qIdx.toNat = some q) :
    submitResponse s pid qIdx t now =
      checkForAutoAdvance
        (match t with
         | some target =>
             upsertEdge (recordResponse s pid qIdx t q.channel now) pid target
               q.channel now
         | none => recordResponse s pid qIdx t q.channel now) qIdx := by
  unfold submitResponse
  rw [if_neg (not_not_intro hc), if_pos h0, hq]

theorem checkForAutoAdvance_participants (s : Session) (q : Int) :
    (checkForAutoAdvance s q).participants = s.participants := by
  rcases checkForAutoAdvance_cases s q with h | h <;> rw [h]

theorem checkForAutoAdvance_responses (s : Session) (q : Int) :
    (checkForAutoAdvance s q).responses = s.responses := by
  rcases checkForAutoAdvance_cases s q with h | h <;> rw [h]

theorem checkForAutoAdvance_nodes (s : Session) (q : Int) :
    (checkForAutoAdvance s q).nodes = s.nodes := by
  rcases checkForAutoAdvance_cases s q with h | h <;> rw [h]

theorem checkForAutoAdvance_edges (s : Session) (q : Int) :
    (checkForAutoAdvance s q).edges = s.edges := by
  rcases checkForAutoAdvance_cases s q with h | h <;> rw [h]

theorem checkForAutoAdvance_cursor (s : Session) (q : Int) :
    (checkForAutoAdvance s q).currentQuestionIndex = s.currentQuestionIndex := by
  rcases checkForAutoAdvance_cases s q with h | h <;> rw [h]

theorem checkForAutoAdvance_questions (s : Session) (q : Int) :
    (checkForAutoAdvance s q).questions = s.questions := by
  rcases checkForAutoAdvance_cases s q with h | h <;> rw [h]

theorem checkForAutoAdvance_identityDeleted (s : Session) (q : Int) :
    (checkForAutoAdvance s q).identityDeleted = s.identityDeleted := by
  rcases checkForAutoAdvance_cases s q with h | h <;> rw [h]

theorem checkForAutoAdvance_identityMap (s : Session) (q : Int) :
    (checkForAutoAdvance s q).identityMap = s.identityMap := by
  rcases checkForAutoAdvance_cases s q with h | h <;> rw [h]

/-- The state the `submit-response` handler passes to the auto-advance
check, for a valid submission: response recorded, edge upserted when a
target was named. -/
def submittedState (s : Session) (pid : String) (qIdx : Int) (t : Option String)
    (ch : Channel) (now : Nat) : Session :=
  match t with
  | some target => upsertEdge (recordResponse s pid qIdx t ch now) pid target ch now
  | none => recordResponse s pid qIdx t ch now

theorem submitResponse_valid (s : Session) (pid : String) (qIdx : Int)
    (t : Option String) (now : Nat) (q : Question)
    (hc : qIdx = s.currentQuestionIndex) (h0 : 0 ≤ qIdx)
    (hq : s.questions.get? qIdx.toNat = some q) :
    submitResponse s pid qIdx t now =
      checkForAutoAdvance (submittedState s pid qIdx t q.channel now) qIdx := by
  rw [submitResponse_valid_eq s pid qIdx t now q hc h0 hq]
  cases t <;> rfl

theorem submittedState_participants (s : Session) (pid : String) (qIdx : Int)
    (t : Option String) (ch : Channel) (now : Nat) :
    (submittedState s pid qIdx t ch now).participants = s.participants := by
  unfold submittedState
  cases t
  · rfl
  · rw [upsertEdge_participants, recordResponse_participants]

theorem submittedState_isPaused (s : Session) (pid : String) (qIdx : Int)
    (t : Option String) (ch : Channel) (now : Nat) :
    (submittedState s pid qIdx t ch now).isPaused = s.isPaused := by
  unfold submittedState
  cases t
  · rfl
  · rw [upsertEdge_isPaused]
    rfl

theorem submittedState_responses (s : Session) (pid : String) (qIdx : Int)
    (t : Option String) (ch : Channel) (now : Nat) :
    (submittedState s pid qIdx t ch now).responses =
      (recordResponse s pid qIdx t ch now).responses := by
  unfold submittedState
  cases t
  · rfl
  · rw [upsertEdge_responses]

theorem submittedState_timer (s : Session) (pid : String) (qIdx : Int)
    (t : Option String) (ch : Channel) (now : Nat) :
    (submittedState s pid qIdx t ch now).autoAdvanceTimer = s.autoAdvanceTimer := by
  unfold submittedState
  cases t
  · rfl
  · rw [upsertEdge_timer]
    rfl

theorem sum_incomingTotal (l : List (String × NodeR)) (pid : String) :
    (l.map (fun n => incomingTotalFrom n.2 pid)).sum =
      (l.map (fun n => incomingFrom n.2 pid Channel.cognitive)).sum +
      (l.map (fun n => incomingFrom n.2 pid Channel.creative)).sum +
      (l.map (fun n => incomingFrom n.2 pid Channel.technical)).sum +
      (l.map (fun n => incomingFrom n.2 pid Channel.social)).sum := by
  induction l with
  | nil => simp
  | cons x xs ih =>
      simp only [List.map_cons, List.sum_cons, incomingTotalFrom_eq x.2 pid, ih]
      omega

/-- C8: for every node in the graph, the `inDegree` computed by the
centrality analyzer equals the sum over the four channels (cognitive,
creative, technical, social) of the raw incoming-weight embedding vector
computed by the embedding calculator for that node. -/
theorem inDegree_eq_embedding_sum (s : Session) (pid : String)
    (h : (alGet s.nodes pid).isSome) :
    (calculateCentrality s pid).inDegree =
      calculateEmbeddingVector s pid Channel.cognitive +
      calculateEmbeddingVector s pid Channel.creative +
      calculateEmbeddingVector s pid Channel.technical +
      calculateEmbeddingVector s pid Channel.social := by
  obtain ⟨p, hp⟩ := Option.isSome_iff_exists.mp h
  unfold calculateCentrality calculateEmbeddingVector
  rw [hp]
  simp only
  rw [foldl_add_eq_sum, foldl_add_eq_sum, foldl_add_eq_sum, foldl_add_eq_sum,
    foldl_add_eq_sum]
  simp only [Nat.zero_add]
  exact sum_incomingTotal s.nodes pid

/-- Witness for C8 at the concrete demonstration state: `B` has a node and
an inDegree of 1, equal to the channel sum `0 + 0 + 1 + 0`. -/
theorem inDegree_eq_embedding_sum_witness :
    (alGet demoAnswered.nodes "B").isSome = true ∧
      (calculateCentrality demoAnswered "B").inDegree =
        calculateEmbeddingVector demoAnswered "B" Channel.cognitive +
        calculateEmbeddingVector demoAnswered "B" Channel.creative +
        calculateEmbeddingVector demoAnswered "B" Channel.technical +
        calculateEmbeddingVector demoAnswered "B" Channel.social :=
  ⟨by decide, inDegree_eq_embedding_sum demoAnswered "B" (by decide)⟩

theorem channelColor_cognitive : channelColor Channel.cognitive = ⟨58, 123, 255⟩ := by
  decide

theorem channelColor_creative : channelColor Channel.creative = ⟨139, 92, 246⟩ := by
  decide

theorem channelColor_technical : channelColor Channel.technical = ⟨34, 197, 94⟩ := by
  decide

theorem channelColor_social : channelColor Channel.social = ⟨245, 158, 11⟩ := by
  decide

/-- C9: for every embedding vector the color blender's R, G, B components
are integers in [0, 255]; a zero total weight yields the fixed neutral
gray `(136, 136, 136)`; and a vector with exactly one non-zero channel
yields that channel's base color scaled component-wise by exactly 0.8 and
rounded — not the full base color. -/
theorem generateNodeColor_props :
    (∀ e : Emb,
       0 ≤ (generateNodeColor e).r ∧ (generateNodeColor e).r ≤ 255 ∧
       0 ≤ (generateNodeColor e).g ∧ (generateNodeColor e).g ≤ 255 ∧
       0 ≤ (generateNodeColor e).b ∧ (generateNodeColor e).b ≤ 255) ∧
    (∀ e : Emb, e.cognitive + e.creative + e.technical + e.social = 0 →
       generateNodeColor e = ⟨136, 136, 136⟩) ∧
    (∀ (ch : Channel) (w : Nat), 0 < w →
       generateNodeColor (singleEmb ch w) = specScaledBaseColor (channelColor ch)) := by
  refine ⟨?_, ?_, ?_⟩
  · intro e
    unfold generateNodeColor
    dsimp only
    split
    · norm_num
    · split
      · norm_num
      · exact ⟨le_min (by norm_num) (le_max_left 0 _), min_le_left _ _,
          le_min (by norm_num) (le_max_left 0 _), min_le_left _ _,
          le_min (by norm_num) (le_max_left 0 _), min_le_left _ _⟩
  · intro e h
    obtain ⟨a, b, c, d⟩ := e
    unfold generateNodeColor
    simp only [embEntries, List.foldl_cons, List.foldl_nil, Nat.zero_add]
    rw [if_pos (by simp only at h; omega)]
  · intro ch w hw
    have hne : (w : ℚ) ≠ 0 := Nat.cast_ne_zero.mpr hw.ne'
    cases ch
    · have hd : findDominant ⟨w, 0, 0, 0⟩ = (w, some Channel.cognitive) := by
        simp [findDominant, embEntries, hw]
      show generateNodeColor ⟨w, 0, 0, 0⟩ =
        specScaledBaseColor (channelColor Channel.cognitive)
      unfold generateNodeColor
      rw [hd, channelColor_cognitive]
      simp only [embEntries, List.foldl_cons, List.foldl_nil, Nat.add_zero, Nat.zero_add]
      rw [if_neg hw.ne']
      simp only [gt_iff_lt, lt_self_iff_false, and_false, if_false, ne_eq,
        not_true_eq_false, false_and, and_true]
      rw [div_self hne]
      norm_num [specScaledBaseColor, channelColor_cognitive, jsRound]
    · have hd : findDominant ⟨0, w, 0, 0⟩ = (w, some Channel.creative) := by
        simp [findDominant, embEntries, hw]
      show generateNodeColor ⟨0, w, 0, 0⟩ =
        specScaledBaseColor (channelColor Channel.creative)
      unfold generateNodeColor
      rw [hd, channelColor_creative]
      simp only [embEntries, List.foldl_cons, List.foldl_nil, Nat.add_zero, Nat.zero_add]
      rw [if_neg hw.ne']
      simp only [gt_iff_lt, lt_self_iff_false, and_false, if_false, ne_eq,
        not_true_eq_false, false_and, and_true]
      rw [div_self hne]
      norm_num [specScaledBaseColor, channelColor_creative, jsRound]
    · have hd : findDominant ⟨0, 0, w, 0⟩ = (w, some Channel.technical) := by
        simp [findDominant, embEntries, hw]
      show generateNodeColor ⟨0, 0, w, 0⟩ =
        specScaledBaseColor (channelColor Channel.technical)
      unfold generateNodeColor
      rw [hd, channelColor_technical]
      simp only [embEntries, List.foldl_cons, List.foldl_nil, Nat.add_zero, Nat.zero_add]
      rw [if_neg hw.ne']
      simp only [gt_iff_lt, lt_self_iff_false, and_false, if_false, ne_eq,
        not_true_eq_false, false_and, and_true]
      rw [div_self hne]
      norm_num [specScaledBaseColor, channelColor_technical, jsRound]
    · have hd : findDominant ⟨0, 0, 0, w⟩ = (w, some Channel.social) := by
        simp [findDominant, embEntries, hw]
      show generateNodeColor ⟨0, 0, 0, w⟩ =
        specScaledBaseColor (channelColor Channel.social)
      unfold generateNodeColor
      rw [hd, channelColor_social]
      simp only [embEntries, List.foldl_cons, List.foldl_nil, Nat.add_zero, Nat.zero_add]
      rw [if_neg hw.ne']
      simp only [gt_iff_lt, lt_self_iff_false, and_false, if_false, ne_eq,
        not_true_eq_false, false_and, and_true]
      rw [div_self hne]
      norm_num [specScaledBaseColor, channelColor_social, jsRound]

/-- Witness for C9 at concrete inputs: the zero vector maps to neutral
gray, and a lone technical weight of 2 maps to the technical base color
scaled by 0.8 and rounded. -/
theorem generateNodeColor_props_witness :
    generateNodeColor ⟨0, 0, 0, 0⟩ = ⟨136, 136, 136⟩ ∧
      generateNodeColor (singleEmb Channel.technical 2) =
        specScaledBaseColor (channelColor Channel.technical) :=
  ⟨generateNodeColor_props.2.1 ⟨0, 0, 0, 0⟩ rfl,
   generateNodeColor_props.2.2 Channel.technical 2 (by decide)⟩

theorem adjWeight_congr (s1 s2 : Session) (a b : String) (ch : Channel)
    (h : s1.nodes = s2.nodes) : adjWeight s1 a b ch = adjWeight s2 a b ch := by
  unfold adjWeight
  rw [h]

theorem responseCountAt_congr (s1 s2 : Session) (q : Int)
    (h : s1.responses = s2.responses) : responseCountAt s1 q = responseCountAt s2 q := by
  unfold responseCountAt
  rw [h]

theorem responseAt_congr (s1 s2 : Session) (q : Int) (pid : String)
    (h : s1.responses = s2.responses) : responseAt s1 q pid = responseAt s2 q pid := by
  unfold responseAt
  rw [h]

theorem edgeWeightAt_congr (s1 s2 : Session) (a b : String) (ch : Channel)
    (h : s1.edges = s2.edges) : edgeWeightAt s1 a b ch = edgeWeightAt s2 a b ch := by
  unfold edgeWeightAt
  rw [h]

/-! ## C1 and C5: session creation does not clear the edge table -/

/-- A new session created on top of the demonstration state: the source's
create handler clears participants, responses, nodes and the identity map
but never touches `session.graph.edges`. -/
def staleCreated : Session := createSession demoAnswered "S2" (some demoQs) [1]

/-- C1: the invariant "every materialized edge's weight equals the weight
stored for that channel in the source node's adjacency map entry for that
target, in every reachable state (in particular after every session
creation)" fails on the code: after a session creation following a
recorded response, the stale edge `(A, B, technical)` of weight 1 survives
while the node table (and with it every adjacency entry) has been cleared.
The code contradicts spec §4.1, whose `clear()` removes "all nodes and
edges" on session create/end — the create handler simply omits the
`edges.clear()` that the end handler performs. -/
theorem edge_adjacency_invariant_broken_by_create :
    adjWeight demoAnswered "A" "B" Channel.technical = 1 ∧
    edgeWeightAt demoAnswered "A" "B" Channel.technical = some 1 ∧
    alGet staleCreated.edges ("A", "B", Channel.technical) =
      some ⟨"A", "B", Channel.technical, 1, 100⟩ ∧
    staleCreated.nodes = [] ∧
    ¬ edgeMatchesAdjacency staleCreated := by
  refine ⟨by decide, by decide, by decide, by decide, ?_⟩
  intro hinv
  obtain ⟨n, ws, hn, -, -⟩ :=
    hinv ("A", "B", Channel.technical) ⟨"A", "B", Channel.technical, 1, 100⟩ (by decide)
  rw [show staleCreated.nodes = [] from by decide] at hn
  simp [alGet] at hn

/-- C5: after `endSession` all participant, graph and response state is
cleared as claimed, but after `createSession` the edge table is NOT
cleared (here it still holds the stale edge of the previous session, edge
count 1, not 0), while every other claimed field does reset. -/
theorem session_reset_edge_clearing :
    staleCreated.participants.length = 0 ∧
    staleCreated.nodes.length = 0 ∧
    staleCreated.responses = [] ∧
    staleCreated.currentQuestionIndex = -1 ∧
    staleCreated.epochCount = 0 ∧
    staleCreated.identityDeleted = false ∧
    staleCreated.edges.length = 1 ∧
    (endSession demoAnswered).participants.length = 0 ∧
    (endSession demoAnswered).nodes.length = 0 ∧
    (endSession demoAnswered).responses = [] ∧
    (endSession demoAnswered).edges.length = 0 ∧
    (endSession demoAnswered).currentQuestionIndex = -1 ∧
    (endSession demoAnswered).epochCount = 0 ∧
    (endSession demoAnswered).identityDeleted = false := by
  decide

/-! ## C2: resubmission overwrites the response but double-counts the
edge weight -/

/-- `A` corrects their answer to question 0 (same target `B`) before the
question advances. -/
def demoResubmitted : Session := submitResponse demoAnswered "A" 0 (some "B") 200

/-- C2 counterexample: after the correction the response table still holds
a single response for `A` (the overwrite part of the claim holds), but the
`(A, B, technical)` weight is 2, not the weight 1 that only the final
response would have produced — a duplicate edge weight IS added. -/
theorem resubmission_double_counts :
    responseCountAt demoResubmitted 0 = 1 ∧
    responseAt demoResubmitted 0 "A" = some ⟨some "B", Channel.technical, 200⟩ ∧
    adjWeight demoResubmitted "A" "B" Channel.technical = 2 ∧
    edgeWeightAt demoResubmitted "A" "B" Channel.technical = some 2 ∧
    adjWeight demoAnswered "A" "B" Channel.technical = 1 ∧
    adjWeight demoResubmitted "A" "B" Channel.technical ≠
      adjWeight demoAnswered "A" "B" Channel.technical := by
  decide


theorem responseCountAt_check (s : Session) (q q2 : Int) :
    responseCountAt (checkForAutoAdvance s q2) q = responseCountAt s q :=
  responseCountAt_congr _ _ _ (checkForAutoAdvance_responses s q2)

theorem responseCountAt_upsert (s : Session) (a b : String) (ch : Channel) (now : Nat)
    (q : Int) : responseCountAt (upsertEdge s a b ch now) q = responseCountAt s q :=
  responseCountAt_congr _ _ _ (upsertEdge_responses s a b ch now)

theorem responseAt_check (s : Session) (q q2 : Int) (pid : String) :
    responseAt (checkForAutoAdvance s q2) q pid = responseAt s q pid :=
  responseAt_congr _ _ _ _ (checkForAutoAdvance_responses s q2)

theorem responseAt_upsert (s : Session) (a b : String) (ch : Channel) (now : Nat)
    (q : Int) (pid : String) :
    responseAt (upsertEdge s a b ch now) q pid = responseAt s q pid :=
  responseAt_congr _ _ _ _ (upsertEdge_responses s a b ch now)

theorem adjWeight_check (s : Session) (q : Int) (a b : String) (ch : Channel) :
    adjWeight (checkForAutoAdvance s q) a b ch = adjWeight s a b ch :=
  adjWeight_congr _ _ _ _ _ (checkForAutoAdvance_nodes s q)

theorem edgeWeightAt_check (s : Session) (q : Int) (a b : String) (ch : Channel) :
    edgeWeightAt (checkForAutoAdvance s q) a b ch = edgeWeightAt s a b ch :=
  edgeWeightAt_congr _ _ _ _ _ (checkForAutoAdvance_edges s q)

/-- C2 (amended): if a participant submits a second response for the same
question index before the question advances (same target), the second
response overwrites the first in the response table — the per-question
response count does not grow and the stored response is the latest one —
but a duplicate edge weight IS added: each submission increments the
`(source, target, channel)` weight again, so after the correction the
weight is the previous weight plus two, not the weight a single (final)
submission would have produced. -/
theorem resubmission_overwrites_but_increments (s : Session) (pid target : String)
    (qIdx : Int) (now1 now2 : Nat) (q : Question)
    (hc : qIdx = s.currentQuestionIndex) (h0 : 0 ≤ qIdx)
    (hq : s.questions.get? qIdx.toNat = some q)
    (hnode : (alGet s.nodes pid).isSome) :
    responseCountAt (submitResponse (submitResponse s pid qIdx (some target) now1)
        pid qIdx (some target) now2) qIdx =
      responseCountAt (submitResponse s pid qIdx (some target) now1) qIdx ∧
    responseAt (submitResponse (submitResponse s pid qIdx (some target) now1)
        pid qIdx (some target) now2) qIdx pid =
      some ⟨some target, q.channel, now2⟩ ∧
    adjWeight (submitResponse s pid qIdx (some target) now1) pid target q.channel =
      adjWeight s pid target q.channel + 1 ∧
    adjWeight (submitResponse (submitResponse s pid qIdx (some target) now1)
        pid qIdx (some target) now2) pid target q.channel =
      adjWeight s pid target q.channel + 2 := by
  obtain ⟨n, hn⟩ := Option.isSome_iff_exists.mp hnode
  have e1 : submitResponse s pid qIdx (some target) now1 =
      checkForAutoAdvance
        (upsertEdge (recordResponse s pid qIdx (some target) q.channel now1)
          pid target q.channel now1) qIdx :=
    submitResponse_valid_eq s pid qIdx (some target) now1 q hc h0 hq
  have hs1c : qIdx = (submitResponse s pid qIdx (some target) now1).currentQuestionIndex := by
    rw [e1, checkForAutoAdvance_cursor, upsertEdge_cursor]
    exact hc
  have hs1q : (submitResponse s pid qIdx (some target) now1).questions.get? qIdx.toNat =
      some q := by
    rw [e1, checkForAutoAdvance_questions, upsertEdge_questions]
    exact hq
  have hs1node : (alGet (submitResponse s pid qIdx (some target) now1).nodes pid).isSome := by
    rw [e1, checkForAutoAdvance_nodes]
    exact upsertEdge_node_isSome _ pid target q.channel now1 hnode
  have hs1respAt : responseAt (submitResponse s pid qIdx (some target) now1) qIdx pid =
      some ⟨some target, q.channel, now1⟩ := by
    rw [e1, responseAt_check, responseAt_upsert]
    exact recordResponse_responseAt s pid qIdx (some target) q.channel now1
  have e2 : submitResponse (submitResponse s pid qIdx (some target) now1)
      pid qIdx (some target) now2 =
      checkForAutoAdvance
        (upsertEdge (recordResponse (submitResponse s pid qIdx (some target) now1)
          pid qIdx (some target) q.channel now2) pid target q.channel now2) qIdx :=
    submitResponse_valid_eq _ pid qIdx (some target) now2 q hs1c h0 hs1q
  have hadj1 : adjWeight (submitResponse s pid qIdx (some target) now1) pid target
      q.channel = adjWeight s pid target q.channel + 1 := by
    rw [e1, adjWeight_check, upsertEdge_adjWeight _ _ _ _ _ n (by exact hn)]
    rfl
  refine ⟨?_, ?_, hadj1, ?_⟩
  · rw [e2, responseCountAt_check, responseCountAt_upsert, recordResponse_count]
    have hsome : (alGet ((alGet (submitResponse s pid qIdx (some target) now1).responses
        qIdx).getD []) pid).isSome := by
      show (responseAt (submitResponse s pid qIdx (some target) now1) qIdx pid).isSome = true
      rw [hs1respAt]
      rfl
    rw [if_pos hsome]
  · rw [e2, responseAt_check, responseAt_upsert]
    exact recordResponse_responseAt _ pid qIdx (some target) q.channel now2
  · obtain ⟨n1, hn1⟩ := Option.isSome_iff_exists.mp hs1node
    rw [e2, adjWeight_check, upsertEdge_adjWeight _ _ _ _ _ n1 (by exact hn1)]
    rw [show adjWeight (recordResponse (submitResponse s pid qIdx (some target) now1)
      pid qIdx (some target) q.channel now2) pid target q.channel =
      adjWeight (submitResponse s pid qIdx (some target) now1) pid target q.channel
      from rfl]
    rw [hadj1]

/-- Witness for the amended C2 at the concrete demonstration run: `A`
resubmits for question 0 with target `B`; the response table keeps one
response (the latest), while the weight goes from 0 to 1 to 2. -/
theorem resubmission_overwrites_but_increments_witness :
    responseCountAt demoResubmitted 0 =
      responseCountAt (submitResponse demoStarted "A" 0 (some "B") 100) 0 ∧
    responseAt demoResubmitted 0 "A" =
      some ⟨some "B", Channel.technical, 200⟩ ∧
    adjWeight (submitResponse demoStarted "A" 0 (some "B") 100) "A" "B"
      Channel.technical = adjWeight demoStarted "A" "B" Channel.technical + 1 ∧
    adjWeight demoResubmitted "A" "B" Channel.technical =
      adjWeight demoStarted "A" "B" Channel.technical + 2 :=
  resubmission_overwrites_but_increments demoStarted "A" "B" 0 100 200
    ⟨"Who would you go to for technical help?", Channel.technical⟩
    (by decide) (by decide) (by decide) (by decide)

/-! ## C3 and C4: what the two advance paths actually check -/

/-- The demonstration session ended and then paused: no active session
(`isActive = false`, `id = none`), paused flag up, cursor −1, and the two
demo questions still in place (the end handler never clears `questions`). -/
def demoEndedPaused : Session := pauseResume (endSession demoAnswered) true

/-- C3 counterexample: invoking the synchronous advance
(`POST /api/session/next-question`) while the session is paused AND no
session is active is not a no-op — the question cursor moves from −1 to 0
and a new question is reported, because the handler checks neither
`isPaused` nor `isActive`. -/
theorem advance_not_noop_when_paused_or_inactive :
    demoEndedPaused.isPaused = true ∧
    demoEndedPaused.isActive = false ∧
    demoEndedPaused.id = none ∧
    demoEndedPaused.currentQuestionIndex = -1 ∧
    (nextQuestion demoEndedPaused).1.currentQuestionIndex = 0 ∧
    (nextQuestion demoEndedPaused).2 = NextOutcome.advanced 0 ∧
    (nextQuestion demoEndedPaused).1 ≠ demoEndedPaused := by
  decide

/-- C3 (amended): the paused no-op guard belongs to the automatic advance
path only — `advanceToNextQuestion` is a no-op whenever the session is
paused — while the outstanding-respondents refusal belongs to the manual
handler only: when the current question has outstanding respondents
(`responseCount < participantCount`, `participantCount > 0`) the
synchronous handler refuses, reports the shortfall and leaves the state
unchanged.  The synchronous handler checks neither the paused flag nor
session activity, and the automatic path does not check outstanding
respondents. -/
theorem advance_guard_properties :
    (∀ s : Session, s.isPaused = true → advanceToNextQuestion s = s) ∧
    (∀ s : Session, 0 ≤ s.currentQuestionIndex →
       responseCountAt s s.currentQuestionIndex < s.participants.length →
       0 < s.participants.length →
       nextQuestion s =
         (s, NextOutcome.waiting (responseCountAt s s.currentQuestionIndex)
           s.participants.length)) := by
  constructor
  · intro s h
    unfold advanceToNextQuestion
    rw [if_pos h]
  · intro s h0 hlt hpc
    unfold nextQuestion
    rw [if_pos ⟨h0, hlt, hpc⟩]

/-- Witness for the amended C3: the automatic path is inert on the ended
and paused demonstration state; the manual handler refuses on the started
demonstration state, where 0 of 2 participants have answered question 0. -/
theorem advance_guard_properties_witness :
    advanceToNextQuestion demoEndedPaused = demoEndedPaused ∧
    nextQuestion demoStarted =
      (demoStarted, NextOutcome.waiting
        (responseCountAt demoStarted demoStarted.currentQuestionIndex)
        demoStarted.participants.length) :=
  ⟨advance_guard_properties.1 demoEndedPaused (by decide),
   advance_guard_properties.2 demoStarted (by decide) (by decide) (by decide)⟩

/-- C4 counterexample: a successful synchronous advance
(`POST /api/session/next-question` reporting `advanced`) moves the cursor
from −1 to 0 but leaves the epoch at 0 rather than incrementing it to 1 —
the manual advance path never touches the epoch counter. -/
theorem manual_advance_does_not_increment_epoch :
    demoJoined.epochCount = 0 ∧
    (nextQuestion demoJoined).2 = NextOutcome.advanced 0 ∧
    (nextQuestion demoJoined).1.currentQuestionIndex = 0 ∧
    (nextQuestion demoJoined).1.epochCount = 0 ∧
    (nextQuestion demoJoined).1.epochCount ≠ demoJoined.epochCount + 1 := by
  decide

/-- C4 (amended): the epoch counter is incremented by the automatic
advance path — whenever `advanceToNextQuestion` advances the cursor (not
paused, questions remaining) the epoch afterwards is exactly one greater
than before — but the synchronous next-question handler never changes the
epoch, whatever its outcome. -/
theorem epoch_increment_properties :
    (∀ s : Session, s.isPaused = false →
       s.currentQuestionIndex < (s.questions.length : Int) - 1 →
       (advanceToNextQuestion s).epochCount = s.epochCount + 1 ∧
       (advanceToNextQuestion s).currentQuestionIndex = s.currentQuestionIndex + 1) ∧
    (∀ s : Session, (nextQuestion s).1.epochCount = s.epochCount) := by
  constructor
  · intro s hp hlt
    unfold advanceToNextQuestion
    rw [if_neg (by simp [hp]), if_pos hlt]
    exact ⟨rfl, rfl⟩
  · intro s
    unfold nextQuestion
    by_cases hb : 0 ≤ s.currentQuestionIndex ∧
        responseCountAt s s.currentQuestionIndex < s.participants.length ∧
        0 < s.participants.length
    · rw [if_pos hb]
    · rw [if_neg hb]
      by_cases hlt : s.currentQuestionIndex < (s.questions.length : Int) - 1
      · rw [if_pos hlt]
      · rw [if_neg hlt]

/-- Witness for the amended C4: the automatic advance on the joined
demonstration state takes the epoch from 0 to 1; the manual handler on the
same state leaves it at 0. -/
theorem epoch_increment_properties_witness :
    ((advanceToNextQuestion demoJoined).epochCount = demoJoined.epochCount + 1 ∧
      (advanceToNextQuestion demoJoined).currentQuestionIndex =
        demoJoined.currentQuestionIndex + 1) ∧
    (nextQuestion demoJoined).1.epochCount = demoJoined.epochCount :=
  ⟨epoch_increment_properties.1 demoJoined (by decide) (by decide),
   epoch_increment_properties.2 demoJoined⟩

/-! ## C10: paused sessions still record responses and grow the graph -/

/-- C10: while the session is paused, a response submitted for the current
question index is still recorded in the response table and still
increments the corresponding adjacency weight and edge weight; the paused
flag only prevents the auto-advance timer from being (re)scheduled — the
pending-timer slot is left exactly as it was. -/
theorem paused_submission_still_records (s : Session) (pid target : String)
    (qIdx : Int) (now : Nat) (q : Question)
    (hp : s.isPaused = true)
    (hc : qIdx = s.currentQuestionIndex) (h0 : 0 ≤ qIdx)
    (hq : s.questions.get? qIdx.toNat = some q)
    (hnode : (alGet s.nodes pid).isSome) :
    responseAt (submitResponse s pid qIdx (some target) now) qIdx pid =
      some ⟨some target, q.channel, now⟩ ∧
    adjWeight (submitResponse s pid qIdx (some target) now) pid target q.channel =
      adjWeight s pid target q.channel + 1 ∧
    edgeWeightAt (submitResponse s pid qIdx (some target) now) pid target q.channel =
      some (adjWeight s pid target q.channel + 1) ∧
    (submitResponse s pid qIdx (some target) now).autoAdvanceTimer =
      s.autoAdvanceTimer := by
  obtain ⟨n, hn⟩ := Option.isSome_iff_exists.mp hnode
  have e1 : submitResponse s pid qIdx (some target) now =
      checkForAutoAdvance
        (upsertEdge (recordResponse s pid qIdx (some target) q.channel now)
          pid target q.channel now) qIdx :=
    submitResponse_valid_eq s pid qIdx (some target) now q hc h0 hq
  have hu1p : (upsertEdge (recordResponse s pid qIdx (some target) q.channel now)
      pid target q.channel now).isPaused = true := by
    rw [upsertEdge_isPaused]
    exact hp
  have e1' : submitResponse s pid qIdx (some target) now =
      upsertEdge (recordResponse s pid qIdx (some target) q.channel now)
        pid target q.channel now := by
    rw [e1, checkForAutoAdvance_paused _ _ hu1p]
  refine ⟨?_, ?_, ?_, ?_⟩
  · rw [e1', responseAt_upsert]
    exact recordResponse_responseAt s pid qIdx (some target) q.channel now
  · rw [e1', upsertEdge_adjWeight _ _ _ _ _ n (by exact hn)]
    rfl
  · rw [e1', upsertEdge_edgeWeight _ _ _ _ _ n (by exact hn)]
    rfl
  · rw [e1', upsertEdge_timer]
    rfl

/-- The demonstration session paused right after the questions started. -/
def demoPaused : Session := pauseResume demoStarted true

/-- Witness for C10: on the paused demonstration state, `A`'s nomination
of `B` is recorded, the weight goes from 0 to 1, the edge appears with
weight 1, and the (empty) timer slot is untouched. -/
theorem paused_submission_still_records_witness :
    responseAt (submitResponse demoPaused "A" 0 (some "B") 100) 0 "A" =
      some ⟨some "B", Channel.technical, 100⟩ ∧
    adjWeight (submitResponse demoPaused "A" 0 (some "B") 100) "A" "B"
      Channel.technical = adjWeight demoPaused "A" "B" Channel.technical + 1 ∧
    edgeWeightAt (submitResponse demoPaused "A" 0 (some "B") 100) "A" "B"
      Channel.technical = some (adjWeight demoPaused "A" "B" Channel.technical + 1) ∧
    (submitResponse demoPaused "A" 0 (some "B") 100).autoAdvanceTimer =
      demoPaused.autoAdvanceTimer :=
  paused_submission_still_records demoPaused "A" "B" 0 100
    ⟨"Who would you go to for technical help?", Channel.technical⟩
    (by decide) (by decide) (by decide) (by decide) (by decide)

/-! ## C7: the auto-advance timer discipline -/

/-- C7: (i) after every response that brings the current question's
response count to at least the participant count (participant count
positive) while not paused, the single pending-task slot holds exactly the
one fresh single-shot 5000 ms auto-advance task (the source cancels the
previously stored task before rescheduling, and stores the new handle in
the same slot, so at most one task is ever pending); (ii) pausing cancels
the pending task; (iii) resuming re-schedules it exactly when the current
question is already fully answered. -/
theorem auto_advance_timer_properties :
    (∀ (s : Session) (pid : String) (qIdx : Int) (t : Option String) (now : Nat)
       (q : Question),
       s.isPaused = false →
       qIdx = s.currentQuestionIndex → 0 ≤ qIdx →
       s.questions.get? qIdx.toNat = some q →
       s.participants.length ≤ responseCountAt (submitResponse s pid qIdx t now) qIdx →
       0 < s.participants.length →
       (submitResponse s pid qIdx t now).autoAdvanceTimer = some 5000) ∧
    (∀ s : Session, (pauseResume s true).autoAdvanceTimer = none ∧
       (pauseResume s true).isPaused = true) ∧
    (∀ s : Session, s.autoAdvanceTimer = none →
       ((pauseResume s false).autoAdvanceTimer = some 5000 ↔
         fullyAnsweredCurrent s)) := by
  refine ⟨?_, ?_, ?_⟩
  · intro s pid qIdx t now q hp hc h0 hq hcount hpc
    have e1 : submitResponse s pid qIdx t now =
        checkForAutoAdvance (submittedState s pid qIdx t q.channel now) qIdx :=
      submitResponse_valid s pid qIdx t now q hc h0 hq
    have hrc : responseCountAt (submitResponse s pid qIdx t now) qIdx =
        responseCountAt (submittedState s pid qIdx t q.channel now) qIdx := by
      rw [e1, responseCountAt_check]
    have hpaused : (submittedState s pid qIdx t q.channel now).isPaused = false := by
      rw [submittedState_isPaused]
      exact hp
    have hcond : (submittedState s pid qIdx t q.channel now).participants.length ≤
        responseCountAt (submittedState s pid qIdx t q.channel now) qIdx ∧
        0 < (submittedState s pid qIdx t q.channel now).participants.length := by
      rw [submittedState_participants]
      exact ⟨hrc ▸ hcount, hpc⟩
    rw [e1, checkForAutoAdvance_scheduled _ _ hpaused hcond]
  · intro s
    exact ⟨rfl, rfl⟩
  · intro s htimer
    have hresume : pauseResume s false =
        (if 0 ≤ ({ s with isPaused := false } : Session).currentQuestionIndex then
          checkForAutoAdvance { s with isPaused := false }
            ({ s with isPaused := false } : Session).currentQuestionIndex
        else { s with isPaused := false }) := rfl
    by_cases h0 : 0 ≤ s.currentQuestionIndex
    · rw [hresume, if_pos h0]
      by_cases hcond : ({ s with isPaused := false } : Session).participants.length ≤
          responseCountAt { s with isPaused := false } s.currentQuestionIndex ∧
          0 < ({ s with isPaused := false } : Session).participants.length
      · rw [checkForAutoAdvance_scheduled _ _ rfl hcond]
        exact iff_of_true rfl ⟨h0, hcond.2, hcond.1⟩
      · rw [checkForAutoAdvance_not_scheduled _ _ hcond]
        refine iff_of_false ?_ ?_
        · show s.autoAdvanceTimer ≠ some 5000
          rw [htimer]
          exact Option.noConfusion
        · intro hfull
          exact hcond ⟨hfull.2.2, hfull.2.1⟩
    · rw [hresume, if_neg h0]
      refine iff_of_false ?_ ?_
      · show s.autoAdvanceTimer ≠ some 5000
        rw [htimer]
        exact Option.noConfusion
      · intro hfull
        exact h0 hfull.1

/-- The fully answered demonstration state: both participants have
answered question 0, so the 5-second auto-advance task is pending. -/
def demoFull : Session := submitResponse demoAnswered "B" 0 (some "A") 150

/-- Witness for C7 at the demonstration run: `B`'s response (the second of
two) arms the 5000 ms task; pausing clears it; resuming the paused
fully-answered state re-arms it. -/
theorem auto_advance_timer_properties_witness :
    demoFull.autoAdvanceTimer = some 5000 ∧
    ((pauseResume demoFull true).autoAdvanceTimer = none ∧
      (pauseResume demoFull true).isPaused = true) ∧
    (pauseResume (pauseResume demoFull true) false).autoAdvanceTimer = some 5000 :=
  ⟨auto_advance_timer_properties.1 demoAnswered "B" 0 (some "A") 150
      ⟨"Who would you go to for technical help?", Channel.technical⟩
      (by decide) (by decide) (by decide) (by decide) (by decide) (by decide),
   auto_advance_timer_properties.2.1 demoFull,
   (auto_advance_timer_properties.2.2 (pauseResume demoFull true) (by decide)).mpr
     ⟨by decide, by decide, by decide⟩⟩

/-! ## C6: anonymization and one-way identity suppression -/

theorem submittedState_identityDeleted (s : Session) (pid : String) (qIdx : Int)
    (t : Option String) (ch : Channel) (now : Nat) :
    (submittedState s pid qIdx t ch now).identityDeleted = s.identityDeleted := by
  unfold submittedState
  cases t
  · rfl
  · rw [upsertEdge_identityDeleted]
    rfl

theorem submittedState_identityMap (s : Session) (pid : String) (qIdx : Int)
    (t : Option String) (ch : Channel) (now : Nat) :
    (submittedState s pid qIdx t ch now).identityMap = s.identityMap := by
  unfold submittedState
  cases t
  · rfl
  · rw [upsertEdge_identityMap]
    rfl

theorem joinSession_suppressed (s : Session) (sid name pid : String)
    (hs : Suppressed s) : Suppressed (joinSession s sid name pid) := by
  obtain ⟨hd, hm⟩ := hs
  unfold joinSession
  split
  · exact ⟨hd, hm⟩
  · split
    · exact ⟨hd, hm⟩
    · exact ⟨hd, by simp [hd, hm]⟩

theorem submitResponse_suppressed (s : Session) (pid : String) (qIdx : Int)
    (t : Option String) (now : Nat) (hs : Suppressed s) :
    Suppressed (submitResponse s pid qIdx t now) := by
  obtain ⟨hd, hm⟩ := hs
  unfold submitResponse
  split
  · exact ⟨hd, hm⟩
  · split
    · exact ⟨hd, hm⟩
    · rename_i q hq
      constructor
      · show (checkForAutoAdvance (submittedState s pid qIdx t q.channel now)
          qIdx).identityDeleted = true
        rw [checkForAutoAdvance_identityDeleted, submittedState_identityDeleted]
        exact hd
      · show (checkForAutoAdvance (submittedState s pid qIdx t q.channel now)
          qIdx).identityMap = []
        rw [checkForAutoAdvance_identityMap, submittedState_identityMap]
        exact hm

theorem nextQuestion_suppressed (s : Session) (hs : Suppressed s) :
    Suppressed (nextQuestion s).1 := by
  obtain ⟨hd, hm⟩ := hs
  unfold nextQuestion
  by_cases hb : 0 ≤ s.currentQuestionIndex ∧
      responseCountAt s s.currentQuestionIndex < s.participants.length ∧
      0 < s.participants.length
  · rw [if_pos hb]
    exact ⟨hd, hm⟩
  · rw [if_neg hb]
    by_cases hlt : s.currentQuestionIndex < (s.questions.length : Int) - 1
    · rw [if_pos hlt]
      exact ⟨hd, hm⟩
    · rw [if_neg hlt]
      exact ⟨hd, hm⟩

theorem advanceToNextQuestion_suppressed (s : Session) (hs : Suppressed s) :
    Suppressed (advanceToNextQuestion s) := by
  obtain ⟨hd, hm⟩ := hs
  unfold advanceToNextQuestion
  by_cases hp : s.isPaused = true
  · rw [if_pos hp]
    exact ⟨hd, hm⟩
  · rw [if_neg hp]
    by_cases hlt : s.currentQuestionIndex < (s.questions.length : Int) - 1
    · rw [if_pos hlt]
      exact ⟨hd, hm⟩
    · rw [if_neg hlt]
      exact ⟨hd, hm⟩

theorem fireTimer_suppressed (s : Session) (hs : Suppressed s) :
    Suppressed (fireTimer s) := by
  unfold fireTimer
  by_cases ht : s.autoAdvanceTimer.isSome
  · rw [if_pos ht]
    exact advanceToNextQuestion_suppressed _ ⟨hs.1, hs.2⟩
  · rw [if_neg ht]
    exact hs

theorem checkForAutoAdvance_suppressed (s : Session) (q : Int) (hs : Suppressed s) :
    Suppressed (checkForAutoAdvance s q) := by
  constructor
  · rw [checkForAutoAdvance_identityDeleted]
    exact hs.1
  · rw [checkForAutoAdvance_identityMap]
    exact hs.2

theorem pauseResume_suppressed (s : Session) (p : Bool) (hs : Suppressed s) :
    Suppressed (pauseResume s p) := by
  unfold pauseResume
  cases p
  · simp only [Bool.false_eq_true, if_false]
    by_cases h0 : (0 : Int) ≤ s.currentQuestionIndex
    · rw [if_pos h0]
      exact checkForAutoAdvance_suppressed _ _ ⟨hs.1, hs.2⟩
    · rw [if_neg h0]
      exact hs
  · exact ⟨hs.1, hs.2⟩

theorem startQuestions_suppressed (s : Session) (hs : Suppressed s) :
    Suppressed (startQuestions s) := by
  unfold startQuestions
  by_cases h0 : (0 : Int) ≤ s.currentQuestionIndex
  · rw [if_pos h0]
    exact hs
  · rw [if_neg h0]
    exact advanceToNextQuestion_suppressed s hs

theorem deleteIdentity_suppressed (s : Session) : Suppressed (deleteIdentity s) :=
  ⟨rfl, rfl⟩

theorem sessionStep_preserves_suppressed (s s2 : Session) (h : SessionStep s s2)
    (hs : Suppressed s) : Suppressed s2 := by
  cases h with
  | join sid name pid => exact joinSession_suppressed s sid name pid hs
  | submit pid qIdx t now => exact submitResponse_suppressed s pid qIdx t now hs
  | nextQ => exact nextQuestion_suppressed s hs
  | epoch => exact ⟨hs.1, hs.2⟩
  | fire => exact fireTimer_suppressed s hs
  | pauseRes p => exact pauseResume_suppressed s p hs
  | startQ => exact startQuestions_suppressed s hs
  | delIdent => exact deleteIdentity_suppressed s
  | leave pid => exact ⟨hs.1, hs.2⟩

/-- C6: while identity is not suppressed, the label computed for a fixed
node identifier is deterministic — it depends on the identifier alone, the
same in any two unsuppressed states — and is a pseudonym drawn from the 8
fixed adjective stems plus a 2-digit suffix; suppression (modelled from
the spec, see `deleteIdentity`) raises the flag and discards the
identifier→real-name map; the suppressed condition is preserved by every
operation within the session's lifetime (so no operation restores the
names); and while suppressed every label follows the positional
`Node-NN` scheme over enumeration order. -/
theorem anonymization_properties :
    (∀ (s1 s2 : Session) (id : String),
       s1.identityDeleted = false → s2.identityDeleted = false →
       labelFor s1 id = labelFor s2 id) ∧
    (∀ id : String, ∃ a : String,
       adjectives.get? ((jsHash id).natAbs % adjectives.length) = some a ∧
       generateAnonymousLabel id = a ++ "-" ++ pad2 ((jsHash id).natAbs % 100) ∧
       (jsHash id).natAbs % 100 < 100) ∧
    (∀ s : Session, Suppressed (deleteIdentity s)) ∧
    (∀ s s2 : Session, Suppressed s → SessionReach s s2 → Suppressed s2) ∧
    (∀ (s : Session) (id : String), s.identityDeleted = true →
       labelFor s id = positionalLabel s id) := by
  refine ⟨?_, ?_, deleteIdentity_suppressed, ?_, ?_⟩
  · intro s1 s2 id h1 h2
    simp [labelFor, h1, h2]
  · intro id
    have hlt : (jsHash id).natAbs % adjectives.length < adjectives.length :=
      Nat.mod_lt _ (by decide)
    refine ⟨adjectives.get ⟨_, hlt⟩, List.get?_eq_get hlt, ?_, Nat.mod_lt _ (by decide)⟩
    unfold generateAnonymousLabel
    dsimp only
    rw [List.get?_eq_get hlt]
    rfl
  · intro s s2 hs hreach
    induction hreach with
    | refl => exact hs
    | tail _ hstep ih => exact sessionStep_preserves_suppressed _ _ hstep ih
  · intro s id h
    simp [labelFor, h]

/-- Witness for C6: concrete unsuppressed states agree on `A`'s pseudonym;
the pseudonym decomposition exists for `"A"`; suppression of the answered
demonstration state is suppressed, stays suppressed across a further
lifetime step (pausing), and yields positional labels. -/
theorem anonymization_properties_witness :
    labelFor demoJoined "A" = labelFor demoStarted "A" ∧
    (∃ a : String,
      adjectives.get? ((jsHash "A").natAbs % adjectives.length) = some a ∧
      generateAnonymousLabel "A" = a ++ "-" ++ pad2 ((jsHash "A").natAbs % 100) ∧
      (jsHash "A").natAbs % 100 < 100) ∧
    Suppressed (deleteIdentity demoAnswered) ∧
    Suppressed (pauseResume (deleteIdentity demoAnswered) true) ∧
    labelFor (deleteIdentity demoAnswered) "A" =
      positionalLabel (deleteIdentity demoAnswered) "A" :=
  ⟨anonymization_properties.1 demoJoined demoStarted "A" (by decide) (by decide),
   anonymization_properties.2.1 "A",
   anonymization_properties.2.2.1 demoAnswered,
   anonymization_properties.2.2.2.1 (deleteIdentity demoAnswered) _
     (anonymization_properties.2.2.1 demoAnswered)
     (Relation.ReflTransGen.single (SessionStep.pauseRes _ true)),
   anonymization_properties.2.2.2.2 (deleteIdentity demoAnswered) "A" rfl⟩
